import Mathlib

/-!
Verification of the tree-select widget core: a shallow embedding of the
Node Selection Engine (TreeNode.vue) and the Selection Controller
(TreeSelect.vue), together with proofs about selection propagation,
indeterminate derivation, merge, mode inheritance, search visibility and
defensive coercions.

Identifiers are modelled as Nat (the source treats ids as opaque values
compared with strict equality).  JavaScript arrays become lists, JavaScript
Set objects become insertion-ordered duplicate-free lists, and the loosely
typed modelValue prop (Array, String or Number, default null) becomes the
SelValue sum type.
-/

/-- One insertion into a JavaScript Set: kept as an insertion-ordered list,
first occurrence wins, duplicates are dropped. -/
def jsSetAdd (acc : List Nat) (x : Nat) : List Nat :=
  if x ∈ acc then acc else acc ++ [x]

/-- Sequential Set.add of every element of a list, as the source does with
forEach over a JavaScript Set. -/
def jsSetAddAll (acc : List Nat) (xs : List Nat) : List Nat :=
  xs.foldl jsSetAdd acc

/-- The JavaScript expression new Set(xs), flattened back to a list in
insertion order. -/
def jsSetOf (xs : List Nat) : List Nat :=
  jsSetAddAll [] xs

/-- Character-list prefix test, auxiliary for the substring test below. -/
def startsWithChars : List Char → List Char → Bool
  | _, [] => true
  | [], _ :: _ => false
  | h :: hs, n :: ns => h == n && startsWithChars hs ns

/-- The JavaScript String.prototype.includes substring test, on character
lists: the needle occurs contiguously somewhere in the haystack. -/
def includesChars (needle : List Char) : List Char → Bool
  | [] => needle.isEmpty
  | h :: hs => startsWithChars (h :: hs) needle || includesChars needle hs

/-- Lower-cased character list of a string, modelling toLowerCase. -/
def lowerChars (s : String) : List Char :=
  s.data.map Char.toLower

/-- The test label.toLowerCase().includes(term.toLowerCase()) from the
isVisible computed property: case-insensitive substring containment. -/
def labelIncludesCI (lab term : String) : Bool :=
  includesChars (lowerChars term) (lowerChars lab)

/-- JavaScript Array.prototype.join with a separator. -/
def jsJoin (sep : String) : List String → String
  | [] => ""
  | [x] => x
  | x :: y :: xs => x ++ sep ++ jsJoin sep (y :: xs)

/-- The JavaScript idiom (optionalString || fallback): an absent or empty
string falls through to the fallback. -/
def jsTruthyOr : Option String → String → String
  | some s, d => if s == "" then d else s
  | none, d => d

/-- The OptionNode tree entity of TreeNode.vue: id, label, children
(absent children are modelled as the empty list) and the optional
selectionMode override. -/
structure OptionNode where
  id : Nat
  label : String
  children : List OptionNode
  selectionMode : Option String

mutual

/-- The ids of every node of a subtree, root included, in the preorder the
collectIds helper of allDescendantIds produces. -/
def subtreeIds : OptionNode → List Nat
  | OptionNode.mk i _ cs _ => i :: subtreeIdsList cs

/-- collectIds applied over a forest by forEach, concatenating results. -/
def subtreeIdsList : List OptionNode → List Nat
  | [] => []
  | c :: cs => subtreeIds c ++ subtreeIdsList cs

end

mutual

/-- Every node of a subtree, root included, in preorder. -/
def subtreeNodes : OptionNode → List OptionNode
  | OptionNode.mk i lab cs m => OptionNode.mk i lab cs m :: subtreeNodesList cs

/-- Every node of a forest of subtrees, in preorder. -/
def subtreeNodesList : List OptionNode → List OptionNode
  | [] => []
  | c :: cs => subtreeNodes c ++ subtreeNodesList cs

end

mutual

/-- The id-to-label pairs written by the optionsMap recursion of
TreeSelect.vue, in write (preorder) order. -/
def flatLabelPairs : OptionNode → List (Nat × String)
  | OptionNode.mk i lab cs _ => (i, lab) :: flatLabelPairsList cs

/-- flatLabelPairs over a forest, concatenating results. -/
def flatLabelPairsList : List OptionNode → List (Nat × String)
  | [] => []
  | c :: cs => flatLabelPairs c ++ flatLabelPairsList cs

end

/-- The modelValue prop of TreeNode.vue and TreeSelect.vue: declared as
Array, String or Number with default null.  An array of ids, a scalar id,
or null. -/
inductive SelValue where
  | arr (ids : List Nat)
  | scalar (i : Nat)
  | null
deriving DecidableEq

/-- The Array.isArray test on a modelValue. -/
def SelValue.isArr : SelValue → Bool
  | .arr _ => true
  | _ => false

/-- The defensive coercion (Array.isArray(v) ? v : []) used by
isIndeterminate and by handleNodeUpdate. -/
def coerceToArray : SelValue → List Nat
  | .arr l => l
  | _ => []

/-- The props record of one TreeNode.vue instance.  The defaults of the
component are multiple := false, searchTerm := "", parentMode :=
"multiple" and siblings := []. -/
structure NodeProps where
  node : OptionNode
  modelValue : SelValue
  multiple : Bool
  searchTerm : String
  parentMode : String
  siblings : List OptionNode

/-- The currentMode computed property of TreeNode.vue: a truthy
selectionMode of the node wins; otherwise the mode is "multiple" when the
multiple prop is set, and the parentMode prop when it is not. -/
def currentMode (node : OptionNode) (multiple : Bool) (parentMode : String) : String :=
  match node.selectionMode with
  | some m => if m == "" then (if multiple then "multiple" else parentMode) else m
  | none => if multiple then "multiple" else parentMode

/-- currentMode of a props record. -/
def NodeProps.mode (p : NodeProps) : String :=
  currentMode p.node p.multiple p.parentMode

/-- The hasChildren computed property: children exist and are nonempty. -/
def hasChildren (n : OptionNode) : Bool :=
  !n.children.isEmpty

/-- The allDescendantIds computed property: ids of every node strictly
below this node, gathered by collectIds over each child subtree.  (The
hasChildren guard of the source is redundant: an empty forest collects
nothing.) -/
def allDescendantIds (n : OptionNode) : List Nat :=
  subtreeIdsList n.children

/-- The isChecked computed property: an array modelValue is probed with
includes, any other modelValue is compared with strict equality (null
compares unequal to every id). -/
def isChecked (mv : SelValue) (node : OptionNode) : Bool :=
  match mv with
  | .arr ids => ids.contains node.id
  | .scalar i => i == node.id
  | .null => false

/-- The isIndeterminate computed property: false unless the mode is
multiple, the node has children and the node is not checked; otherwise the
descendant ids found in the array-coerced modelValue are counted and the
status holds iff that count is strictly between zero and the number of
descendant ids. -/
def isIndeterminate (p : NodeProps) : Bool :=
  if !(currentMode p.node p.multiple p.parentMode == "multiple")
      || !hasChildren p.node || isChecked p.modelValue p.node then
    false
  else
    let modelValueArray := coerceToArray p.modelValue
    let selectedChildren :=
      (allDescendantIds p.node).filter (fun i => modelValueArray.contains i)
    decide (0 < selectedChildren.length)
      && decide (selectedChildren.length < (allDescendantIds p.node).length)

mutual

/-- The isChildVisible closure of the isVisible computed property: the
label of the node matches, or some node of some child subtree matches. -/
def isChildVisible (t : String) : OptionNode → Bool
  | OptionNode.mk _ lab cs _ => labelIncludesCI lab t || isChildVisibleList t cs

/-- children.some(isChildVisible) over a forest. -/
def isChildVisibleList (t : String) : List OptionNode → Bool
  | [] => false
  | c :: cs => isChildVisible t c || isChildVisibleList t cs

end

/-- The isVisible computed property: a falsy (empty) search term shows
everything; otherwise the own label must match, or some descendant label
must match (guarded by hasChildren in the source). -/
def isVisible (p : NodeProps) : Bool :=
  if p.searchTerm = "" then
    true
  else
    let isSelfVisible := labelIncludesCI p.node.label p.searchTerm
    if isSelfVisible then true
    else hasChildren p.node && isChildVisibleList p.searchTerm p.node.children

/-- The two event shapes emitted by TreeNode.vue: the select event
(payload id, ids, isSelected; the id field is present only in the single
branch) and the update event (payload add, remove). -/
inductive NodeEvent where
  | select (id : Option Nat) (ids : List Nat) (isSelected : Bool)
  | update (add : List Nat) (remove : List Nat)
deriving DecidableEq

/-- The handleSelect method of TreeNode.vue, returning the emitted events
in emission order.  Single branch: an unchecked node adds its own id and
removes each differing sibling id, emitting a select event first; a
checked node leaves both sets empty and emits no select event.  Any other
mode runs the multiple branch: the node id and all descendant ids either
all enter add or all enter remove, toggled on isChecked, after a select
event.  The final update event is emitted unconditionally. -/
def handleSelect (p : NodeProps) : List NodeEvent :=
  if currentMode p.node p.multiple p.parentMode == "single" then
    if !(isChecked p.modelValue p.node) then
      let toAdd := jsSetAdd [] p.node.id
      let toRemove :=
        jsSetAddAll []
          ((p.siblings.filter (fun s => !(s.id == p.node.id))).map OptionNode.id)
      [NodeEvent.select (some p.node.id) [p.node.id] true,
        NodeEvent.update toAdd toRemove]
    else
      [NodeEvent.update [] []]
  else
    let idsToUpdate := p.node.id :: allDescendantIds p.node
    let shouldSelect := !(isChecked p.modelValue p.node)
    if shouldSelect then
      [NodeEvent.select none idsToUpdate shouldSelect,
        NodeEvent.update (jsSetOf idsToUpdate) []]
    else
      [NodeEvent.select none idsToUpdate shouldSelect,
        NodeEvent.update [] (jsSetOf idsToUpdate)]

/-- The add and remove payloads of the update events among a list of
emitted events. -/
def updateEvents (evs : List NodeEvent) : List (List Nat × List Nat) :=
  evs.filterMap (fun e =>
    match e with
    | NodeEvent.update a r => some (a, r)
    | _ => none)

/-- The props TreeSelect.vue passes to each root TreeNode: node,
modelValue, multiple and searchTerm are forwarded; parentMode and siblings
are not passed, so they take the component defaults "multiple" and []. -/
def rootNodeProps (option : OptionNode) (mv : SelValue) (multiple : Bool)
    (term : String) : NodeProps :=
  { node := option, modelValue := mv, multiple := multiple, searchTerm := term,
    parentMode := "multiple", siblings := [] }

/-- The props a TreeNode passes to each of its children: multiple is the
test currentMode === "multiple", parentMode is the currentMode of the
parent, and siblings is the full child list of the parent. -/
def childNodeProps (p : NodeProps) (c : OptionNode) : NodeProps :=
  { node := c, modelValue := p.modelValue,
    multiple := currentMode p.node p.multiple p.parentMode == "multiple",
    searchTerm := p.searchTerm,
    parentMode := currentMode p.node p.multiple p.parentMode,
    siblings := p.node.children }

/-- The hasSelection computed property of TreeSelect.vue: in multiple mode
the value must be a nonempty array; in single mode it must not be null. -/
def hasSelection (multiple : Bool) (mv : SelValue) : Bool :=
  if multiple then
    match mv with
    | .arr l => decide (0 < l.length)
    | _ => false
  else
    match mv with
    | .null => false
    | _ => true

/-- Lookup in the optionsMap object of TreeSelect.vue.  The recursion
writes flat[node.id] = node.label in preorder and later writes overwrite
earlier ones, hence the search over the reversed pair list. -/
def optionsMapLookup (options : List OptionNode) (i : Nat) : Option String :=
  ((flatLabelPairsList options).reverse.find? (fun q => q.1 == i)).map Prod.snd

/-- JavaScript truthiness of a looked-up label: present and nonempty.
This is the predicate of the filter(label => label) step. -/
def truthyLabel : Option String → Bool
  | some s => !(s == "")
  | none => false

/-- The selectedLabel computed property of TreeSelect.vue: empty string
without a selection; in multiple mode the truthy resolved labels joined
with a comma; in single mode the resolved label of the scalar id or the
empty string.  (An array value in single mode cannot resolve: JavaScript
would stringify it as an object key and miss, modelled as the miss.) -/
def selectedLabel (options : List OptionNode) (multiple : Bool) (mv : SelValue) : String :=
  if !(hasSelection multiple mv) then ""
  else if multiple then
    match mv with
    | .arr l =>
        jsJoin ", "
          (((l.map (optionsMapLookup options)).filter truthyLabel).map (fun o => o.getD ""))
    | _ => ""
  else
    match mv with
    | .scalar i => (optionsMapLookup options i).getD ""
    | _ => ""

/-- The findIndex comparison key used by the sort of handleNodeUpdate:
index of the id among the top-level options, or -1 when absent. -/
def jsFindIndex (options : List OptionNode) (i : Nat) : Int :=
  match options.findIdx? (fun o => o.id == i) with
  | some k => (k : Int)
  | none => -1

/-- Stable insertion step of the sort model. -/
def insertByKey (key : Nat → Int) (x : Nat) : List Nat → List Nat
  | [] => [x]
  | y :: ys => if key x < key y then x :: y :: ys else y :: insertByKey key x ys

/-- The Array.prototype.sort call with comparator indexA - indexB,
modelled as a stable insertion sort by the same key. -/
def sortByKey (key : Nat → Int) (l : List Nat) : List Nat :=
  l.foldr (insertByKey key) []

/-- The multiple branch of handleNodeUpdate in TreeSelect.vue: the current
selection is coerced to an array and poured into a Set, every add id is
inserted, every remove id is deleted (deletion of each remove id equals
filtering them out of the duplicate-free list), and the result is sorted
by top-level option index. -/
def handleNodeUpdateMultiple (options : List OptionNode) (mv : SelValue)
    (add remove : List Nat) : List Nat :=
  let currentSelection := jsSetOf (coerceToArray mv)
  let afterAdd := jsSetAddAll currentSelection add
  let afterRemove := afterAdd.filter (fun x => !(remove.contains x))
  sortByKey (jsFindIndex options) afterRemove

/-- The single branch of handleNodeUpdate in TreeSelect.vue, as the
modelValue update it emits: some (some a) replaces the value with the
first added id, some none clears it on a nonempty remove, and none means
no update event is emitted at all. -/
def handleNodeUpdateSingle (add remove : List Nat) : Option (Option Nat) :=
  match add with
  | a :: _ => some (some a)
  | [] => if remove.isEmpty then none else some none

/-- Modelled from the spec, for comparison in claim C6: the root inherited
mode is the tree-wide default, single when the widget is configured
single and multiple otherwise. -/
def specInheritedRootMode (multiple : Bool) : String :=
  if multiple then "multiple" else "single"

/-- Modelled from the spec, for comparison in claim C6: effectiveMode is
the selectionMode of the node when present, else the inherited mode. -/
def specEffectiveMode (n : OptionNode) (inherited : String) : String :=
  n.selectionMode.getD inherited

/-- Modelled from the spec, for comparison in claim C3: the same merge
with the internal order of application swapped, removing before adding. -/
def mergeRemoveFirst (options : List OptionNode) (S add remove : List Nat) : List Nat :=
  let afterRemove := (jsSetOf S).filter (fun x => !(remove.contains x))
  let afterAdd := jsSetAddAll afterRemove add
  sortByKey (jsFindIndex options) afterAdd

/-- Membership after one JavaScript Set insertion. -/
theorem mem_jsSetAdd (x y : Nat) (acc : List Nat) :
    x ∈ jsSetAdd acc y ↔ x ∈ acc ∨ x = y := by
  unfold jsSetAdd
  by_cases h : y ∈ acc
  · simp only [if_pos h]
    constructor
    · exact fun hx => Or.inl hx
    · rintro (hx | rfl)
      · exact hx
      · exact h
  · simp [if_neg h]

/-- Membership after inserting a whole list into a JavaScript Set. -/
theorem mem_jsSetAddAll (x : Nat) (l acc : List Nat) :
    x ∈ jsSetAddAll acc l ↔ x ∈ acc ∨ x ∈ l := by
  induction l generalizing acc with
  | nil => simp [jsSetAddAll]
  | cons h t ih =>
    unfold jsSetAddAll at ih ⊢
    simp only [List.foldl_cons]
    rw [ih (jsSetAdd acc h), mem_jsSetAdd]
    simp only [List.mem_cons]
    tauto

/-- Membership in the Set built from a list. -/
theorem mem_jsSetOf (x : Nat) (l : List Nat) :
    x ∈ jsSetOf l ↔ x ∈ l := by
  unfold jsSetOf
  rw [mem_jsSetAddAll]
  simp

/-- Membership through one insertion step of the sort model. -/
theorem mem_insertByKey (key : Nat → Int) (x y : Nat) (l : List Nat) :
    y ∈ insertByKey key x l ↔ y = x ∨ y ∈ l := by
  induction l with
  | nil => simp [insertByKey]
  | cons h t ih =>
    unfold insertByKey
    by_cases hk : key x < key h
    · simp [if_pos hk]
    · simp only [if_neg hk, List.mem_cons, ih]
      tauto

/-- The sort of the controller preserves membership. -/
theorem mem_sortByKey (key : Nat → Int) (y : Nat) (l : List Nat) :
    y ∈ sortByKey key l ↔ y ∈ l := by
  induction l with
  | nil => simp [sortByKey]
  | cons h t ih =>
    unfold sortByKey at ih ⊢
    simp only [List.foldr_cons]
    rw [mem_insertByKey]
    simp [ih]

mutual

/-- isChildVisible finds exactly the subtrees containing a matching
label. -/
theorem isChildVisible_iff (t : String) (n : OptionNode) :
    isChildVisible t n = true ↔
      ∃ m ∈ subtreeNodes n, labelIncludesCI m.label t = true := by
  cases n with
  | mk i lab cs m =>
    simp only [isChildVisible, subtreeNodes, Bool.or_eq_true]
    rw [isChildVisibleList_iff t cs]
    simp

/-- Forest version of the previous lemma. -/
theorem isChildVisibleList_iff (t : String) (l : List OptionNode) :
    isChildVisibleList t l = true ↔
      ∃ m ∈ subtreeNodesList l, labelIncludesCI m.label t = true := by
  cases l with
  | nil => simp [isChildVisibleList, subtreeNodesList]
  | cons c cs =>
    simp only [isChildVisibleList, subtreeNodesList, Bool.or_eq_true]
    rw [isChildVisible_iff t c, isChildVisibleList_iff t cs]
    simp only [List.mem_append]
    aesop

end

mutual

/-- The keys written into the optionsMap are exactly the subtree ids. -/
theorem flatLabelPairs_fst (n : OptionNode) :
    (flatLabelPairs n).map Prod.fst = subtreeIds n := by
  cases n with
  | mk i lab cs m =>
    simp only [flatLabelPairs, subtreeIds, List.map_cons, List.cons.injEq, true_and]
    exact flatLabelPairsList_fst cs

/-- Forest version of the previous lemma. -/
theorem flatLabelPairsList_fst (l : List OptionNode) :
    (flatLabelPairsList l).map Prod.fst = subtreeIdsList l := by
  cases l with
  | nil => simp [flatLabelPairsList, subtreeIdsList]
  | cons c cs =>
    simp only [flatLabelPairsList, subtreeIdsList, List.map_append]
    rw [flatLabelPairs_fst c, flatLabelPairsList_fst cs]

end

/-- An id absent from the option tree misses the optionsMap. -/
theorem optionsMapLookup_eq_none (options : List OptionNode) (i : Nat)
    (h : i ∉ subtreeIdsList options) :
    optionsMapLookup options i = none := by
  unfold optionsMapLookup
  rw [List.find?_eq_none.mpr]
  · rfl
  intro q hq
  simp only [beq_iff_eq]
  intro hqi
  apply h
  rw [← flatLabelPairsList_fst options]
  rw [← hqi]
  exact List.mem_map_of_mem Prod.fst (List.mem_reverse.mp hq)

/-- On a duplicate-free id list, the length of the filter by membership in
a selection equals the cardinality of the intersection of the two id
sets. -/
theorem length_filter_contains_eq_card (D S : List Nat) (hnd : D.Nodup) :
    (D.filter (fun i => S.contains i)).length = (D.toFinset ∩ S.toFinset).card := by
  have h1 : (D.filter (fun i => S.contains i)).Nodup := hnd.filter _
  rw [← List.toFinset_card_of_nodup h1, List.toFinset_filter]
  congr 1
  rw [← Finset.filter_mem_eq_inter]
  apply Finset.filter_congr
  intro x _
  simp [List.elem_iff]

/-- The hasChildren guard in front of children.some(isChildVisible) is
redundant: an empty forest reports no visible child anyway. -/
theorem hasChildren_and_childVisibleList (n : OptionNode) (t : String) :
    (hasChildren n && isChildVisibleList t n.children) = isChildVisibleList t n.children := by
  cases n with
  | mk i lab cs m =>
    cases cs with
    | nil => rfl
    | cons c cs2 => rfl

/-- A modelValue that coerces to the empty array yields a false
indeterminate status. -/
theorem isIndeterminate_of_coerce_nil (p : NodeProps)
    (h : coerceToArray p.modelValue = []) :
    isIndeterminate p = false := by
  unfold isIndeterminate
  split
  · rfl
  · simp [h]

/-- C10: for every node, mode and selection value, the update delta
computed by an activation is identical under any two search terms: the
handleSelect method never reads the search term, which only drives
visibility. -/
theorem c10_search_term_independence (node : OptionNode) (mv : SelValue)
    (mult : Bool) (pm : String) (sib : List OptionNode) (t1 t2 : String) :
    updateEvents (handleSelect ⟨node, mv, mult, t1, pm, sib⟩)
      = updateEvents (handleSelect ⟨node, mv, mult, t2, pm, sib⟩) := rfl

/-- C4 counterexample: activating an already-checked single-mode node is
not event-free — the source emits the update event unconditionally, so the
emitted event list of the activation is nonempty (it carries one update
event with empty add and remove). -/
theorem c4_counterexample :
    handleSelect ⟨⟨1, "A", [], some "single"⟩, SelValue.scalar 1, false, "",
      "multiple", []⟩ ≠ [] := by decide

/-- C4 amended: activating an already-checked single-mode node leaves the
SelectionValue unchanged and emits no select event, but it does emit one
update event whose add and remove sets are both empty, which the
single-mode controller branch maps to no modelValue update. -/
theorem c4_amended (p : NodeProps)
    (hm : currentMode p.node p.multiple p.parentMode = "single")
    (hc : isChecked p.modelValue p.node = true) :
    handleSelect p = [NodeEvent.update [] []]
    ∧ handleNodeUpdateSingle [] [] = none := by
  constructor
  · unfold handleSelect
    rw [hm]
    simp [hc]
  · rfl

/-- C4 witness: the amended statement at a concrete checked single-mode
node. -/
theorem c4_witness :
    handleSelect ⟨⟨1, "B", [], some "single"⟩, SelValue.scalar 1, false, "",
        "multiple", []⟩ = [NodeEvent.update [] []]
    ∧ handleNodeUpdateSingle [] [] = none :=
  c4_amended _ (by decide) (by decide)

/-- C5 counterexample: a single-mode activation of an unchecked node with
a differing sibling emits remove = [2], not an empty remove set — sibling
ids are enumerated into remove at the node layer. -/
theorem c5_counterexample :
    updateEvents (handleSelect ⟨⟨1, "A", [], none⟩, SelValue.null, false, "",
      "single", [⟨1, "A", [], none⟩, ⟨2, "B", [], none⟩]⟩) = [([1], [2])]
    ∧ ([2] : List Nat) ≠ [] := by decide

/-- C5 amended: a single-mode activation of an unchecked node emits
add = [id(n)] and remove = the set of ids of the siblings passed to the
node other than id(n) itself (for root nodes the siblings prop defaults to
the empty list, so remove is then empty). -/
theorem c5_amended (p : NodeProps)
    (hm : currentMode p.node p.multiple p.parentMode = "single")
    (hc : isChecked p.modelValue p.node = false) :
    updateEvents (handleSelect p) =
      [([p.node.id],
        jsSetAddAll []
          ((p.siblings.filter (fun s => !(s.id == p.node.id))).map OptionNode.id))]
    ∧ (jsSetAddAll []
        ((p.siblings.filter (fun s => !(s.id == p.node.id))).map OptionNode.id)).toFinset
      = ((p.siblings.map OptionNode.id).toFinset).erase p.node.id := by
  constructor
  · unfold handleSelect
    rw [hm]
    simp [hc, updateEvents, jsSetAdd]
  · ext x
    simp only [List.mem_toFinset, mem_jsSetAddAll, List.mem_map, List.mem_filter,
      Finset.mem_erase, List.not_mem_nil, false_or]
    constructor
    · rintro ⟨s, ⟨hs, hne⟩, rfl⟩
      refine ⟨?_, ⟨s, hs, rfl⟩⟩
      simpa using hne
    · rintro ⟨hne, ⟨s, hs, rfl⟩⟩
      exact ⟨s, ⟨hs, by simpa using hne⟩, rfl⟩

/-- C5 witness: the amended statement at a concrete unchecked single-mode
node with one differing sibling. -/
theorem c5_witness :
    updateEvents (handleSelect ⟨⟨5, "X", [], some "single"⟩, SelValue.null,
      false, "", "multiple", [⟨5, "X", [], some "single"⟩, ⟨6, "Y", [], none⟩]⟩) =
      [([5],
        jsSetAddAll []
          ((([⟨5, "X", [], some "single"⟩, ⟨6, "Y", [], none⟩] : List OptionNode).filter
              (fun s => !(s.id == 5))).map OptionNode.id))]
    ∧ (jsSetAddAll []
        ((([⟨5, "X", [], some "single"⟩, ⟨6, "Y", [], none⟩] : List OptionNode).filter
            (fun s => !(s.id == 5))).map OptionNode.id)).toFinset
      = ((([⟨5, "X", [], some "single"⟩, ⟨6, "Y", [], none⟩] : List OptionNode).map
            OptionNode.id).toFinset).erase 5 :=
  c5_amended _ (by decide) (by decide)

/-- C6 counterexample: with the widget configured single and a root node
carrying no selectionMode override, the rendered effective mode is
"multiple" (the parentMode prop of a root TreeNode is never passed and
defaults to "multiple"), while the claimed resolution yields "single". -/
theorem c6_counterexample :
    NodeProps.mode (rootNodeProps ⟨1, "A", [], none⟩ SelValue.null false "")
      ≠ specEffectiveMode ⟨1, "A", [], none⟩ (specInheritedRootMode false) := by decide

/-- C6 amended: the effective mode equals the truthy selectionMode of the
node when present and the inherited mode otherwise, where the inherited
mode of a root node is always "multiple" — regardless of the tree-wide
single/multiple configuration — and each node passes its own effective
mode down as the inherited mode of its children. -/
theorem c6_amended (opt c : OptionNode) (mv : SelValue) (mult : Bool)
    (term : String) (p : NodeProps) :
    NodeProps.mode (rootNodeProps opt mv mult term)
        = jsTruthyOr opt.selectionMode "multiple"
    ∧ NodeProps.mode (childNodeProps p c)
        = jsTruthyOr c.selectionMode (NodeProps.mode p) := by
  constructor
  · show currentMode opt mult "multiple" = jsTruthyOr opt.selectionMode "multiple"
    unfold currentMode jsTruthyOr
    cases opt.selectionMode <;> cases mult <;> simp
  · show currentMode c (currentMode p.node p.multiple p.parentMode == "multiple")
        (currentMode p.node p.multiple p.parentMode)
      = jsTruthyOr c.selectionMode (currentMode p.node p.multiple p.parentMode)
    generalize currentMode p.node p.multiple p.parentMode = pm
    unfold currentMode jsTruthyOr
    cases c.selectionMode <;> by_cases h : pm = "multiple" <;> simp [h]

/-- C8 counterexample: the checked-status computation does not treat a
non-array SelectionValue as the empty set in multiple mode — a scalar
value equal to the node id reports checked, and the multiple-mode
activation consequently emits a remove delta where the empty-set
treatment would emit an add delta. -/
theorem c8_counterexample :
    isChecked (SelValue.scalar 1) ⟨1, "A", [], none⟩
        ≠ isChecked (SelValue.arr []) ⟨1, "A", [], none⟩
    ∧ updateEvents (handleSelect ⟨⟨1, "A", [], none⟩, SelValue.scalar 1, true, "",
          "multiple", []⟩)
        ≠ updateEvents (handleSelect ⟨⟨1, "A", [], none⟩, SelValue.arr [], true, "",
          "multiple", []⟩) := by decide

/-- C8 amended: for a non-array SelectionValue, the indeterminate status,
the hasSelection test and the multiple-mode merge all behave exactly as on
the empty set and complete without failing; the checked status instead
compares the non-array value for strict equality with the node id, so it
is true exactly when the value is the scalar equal to that id (null is
never checked). -/
theorem c8_amended (node : OptionNode) (mv : SelValue) (h : mv.isArr = false)
    (options : List OptionNode) (a r : List Nat) (mult : Bool) (t pm : String)
    (sib : List OptionNode) :
    isIndeterminate ⟨node, mv, mult, t, pm, sib⟩
        = isIndeterminate ⟨node, SelValue.arr [], mult, t, pm, sib⟩
    ∧ handleNodeUpdateMultiple options mv a r
        = handleNodeUpdateMultiple options (SelValue.arr []) a r
    ∧ hasSelection true mv = false
    ∧ (isChecked mv node = true ↔ mv = SelValue.scalar node.id) := by
  cases mv with
  | arr l => simp [SelValue.isArr] at h
  | scalar i =>
    refine ⟨?_, rfl, rfl, ?_⟩
    · rw [isIndeterminate_of_coerce_nil ⟨node, SelValue.scalar i, mult, t, pm, sib⟩ rfl,
        isIndeterminate_of_coerce_nil ⟨node, SelValue.arr [], mult, t, pm, sib⟩ rfl]
    · simp [isChecked]
  | null =>
    refine ⟨?_, rfl, rfl, ?_⟩
    · rw [isIndeterminate_of_coerce_nil ⟨node, SelValue.null, mult, t, pm, sib⟩ rfl,
        isIndeterminate_of_coerce_nil ⟨node, SelValue.arr [], mult, t, pm, sib⟩ rfl]
    · simp [isChecked]

/-- C8 witness: the amended statement at a concrete node and scalar
value. -/
theorem c8_witness :
    isIndeterminate ⟨⟨1, "A", [⟨2, "B", [], none⟩], none⟩, SelValue.scalar 2, true, "",
          "multiple", []⟩
        = isIndeterminate ⟨⟨1, "A", [⟨2, "B", [], none⟩], none⟩, SelValue.arr [], true, "",
          "multiple", []⟩
    ∧ handleNodeUpdateMultiple [] (SelValue.scalar 2) [3] [4]
        = handleNodeUpdateMultiple [] (SelValue.arr []) [3] [4]
    ∧ hasSelection true (SelValue.scalar 2) = false
    ∧ (isChecked (SelValue.scalar 2) ⟨1, "A", [⟨2, "B", [], none⟩], none⟩ = true
        ↔ SelValue.scalar 2
            = SelValue.scalar (OptionNode.id ⟨1, "A", [⟨2, "B", [], none⟩], none⟩)) :=
  c8_amended ⟨1, "A", [⟨2, "B", [], none⟩], none⟩ (SelValue.scalar 2) (by decide)
    [] [3] [4] true "" "multiple" []

/-- C2: a multiple-mode activation emits exactly one update delta, whose
add set (when the node is unchecked) or remove set (when the node is
checked) is exactly the set consisting of the node id together with all
descendant ids, the opposite side being empty — no other id appears and no
partial subset is emitted. -/
theorem c2_multiple_delta (p : NodeProps)
    (hm : currentMode p.node p.multiple p.parentMode = "multiple") :
    updateEvents (handleSelect p) =
      [(cond (isChecked p.modelValue p.node) []
          (jsSetOf (p.node.id :: allDescendantIds p.node)),
        cond (isChecked p.modelValue p.node)
          (jsSetOf (p.node.id :: allDescendantIds p.node)) [])]
    ∧ (jsSetOf (p.node.id :: allDescendantIds p.node)).toFinset
        = insert p.node.id (allDescendantIds p.node).toFinset := by
  constructor
  · have hcond : (currentMode p.node p.multiple p.parentMode == "single") = false := by
      rw [hm]; decide
    unfold handleSelect
    rw [hcond]
    cases hck : isChecked p.modelValue p.node <;> simp [updateEvents, hck]
  · ext x
    simp [mem_jsSetOf, List.mem_cons]

/-- C2 witness: the statement at the concrete two-leaf tree of the spec
scenario, under an empty selection. -/
theorem c2_witness :
    updateEvents (handleSelect ⟨⟨1, "Fruit", [⟨2, "Apple", [], none⟩,
        ⟨3, "Banana", [], none⟩], none⟩, SelValue.arr [], true, "", "multiple", []⟩) =
      [(cond (isChecked (SelValue.arr [])
            ⟨1, "Fruit", [⟨2, "Apple", [], none⟩, ⟨3, "Banana", [], none⟩], none⟩) []
          (jsSetOf (1 :: allDescendantIds
            ⟨1, "Fruit", [⟨2, "Apple", [], none⟩, ⟨3, "Banana", [], none⟩], none⟩)),
        cond (isChecked (SelValue.arr [])
            ⟨1, "Fruit", [⟨2, "Apple", [], none⟩, ⟨3, "Banana", [], none⟩], none⟩)
          (jsSetOf (1 :: allDescendantIds
            ⟨1, "Fruit", [⟨2, "Apple", [], none⟩, ⟨3, "Banana", [], none⟩], none⟩)) [])]
    ∧ (jsSetOf (1 :: allDescendantIds
          ⟨1, "Fruit", [⟨2, "Apple", [], none⟩, ⟨3, "Banana", [], none⟩], none⟩)).toFinset
        = insert 1 (allDescendantIds
          ⟨1, "Fruit", [⟨2, "Apple", [], none⟩, ⟨3, "Banana", [], none⟩], none⟩).toFinset :=
  c2_multiple_delta _ (by decide)

/-- C3: the multiple-mode merge of a selection S with a disjoint delta
produces, as a set, exactly (S union add) minus remove, and the result
coincides with the merge that applies remove before add — it depends only
on the three sets, never on the internal application order. -/
theorem c3_merge_set (options : List OptionNode) (S A R : List Nat)
    (hd : ∀ y ∈ A, y ∉ R) (x : Nat) :
    (x ∈ handleNodeUpdateMultiple options (SelValue.arr S) A R
        ↔ ((x ∈ S ∨ x ∈ A) ∧ x ∉ R))
    ∧ (x ∈ handleNodeUpdateMultiple options (SelValue.arr S) A R
        ↔ x ∈ mergeRemoveFirst options S A R) := by
  have hL : x ∈ handleNodeUpdateMultiple options (SelValue.arr S) A R
      ↔ ((x ∈ S ∨ x ∈ A) ∧ x ∉ R) := by
    unfold handleNodeUpdateMultiple
    rw [mem_sortByKey, List.mem_filter, mem_jsSetAddAll, mem_jsSetOf]
    simp [coerceToArray, List.elem_iff]
  have hR : x ∈ mergeRemoveFirst options S A R ↔ ((x ∈ S ∧ x ∉ R) ∨ x ∈ A) := by
    unfold mergeRemoveFirst
    rw [mem_sortByKey, mem_jsSetAddAll, List.mem_filter, mem_jsSetOf]
    simp [List.elem_iff]
  refine ⟨hL, hL.trans ?_⟩
  rw [hR]
  have hdx : x ∈ A → x ∉ R := hd x
  tauto

/-- C3 witness: the merge statement at concrete disjoint add and remove
lists. -/
theorem c3_witness :
    (2 ∈ handleNodeUpdateMultiple [] (SelValue.arr [1]) [2] [1]
        ↔ ((2 ∈ [1] ∨ 2 ∈ [2]) ∧ 2 ∉ [1]))
    ∧ (2 ∈ handleNodeUpdateMultiple [] (SelValue.arr [1]) [2] [1]
        ↔ 2 ∈ mergeRemoveFirst [] [1] [2] [1]) :=
  c3_merge_set [] [1] [2] [1] (by decide) 2

/-- C7: a node is visible iff the search term is empty, or its own label
contains the term as a case-insensitive substring, or some descendant
label does — so an ancestor of a match is shown even when its own label
does not match. -/
theorem c7_visibility (p : NodeProps) :
    isVisible p = true ↔
      (p.searchTerm = "" ∨ labelIncludesCI p.node.label p.searchTerm = true
        ∨ ∃ d ∈ subtreeNodesList p.node.children,
            labelIncludesCI d.label p.searchTerm = true) := by
  unfold isVisible
  by_cases ht : p.searchTerm = ""
  · simp [ht]
  · rw [if_neg ht]
    by_cases hs : labelIncludesCI p.node.label p.searchTerm = true
    · simp [hs]
    · simp only [Bool.not_eq_true] at hs
      rw [hs]
      simp only [Bool.false_eq_true, if_false]
      rw [hasChildren_and_childVisibleList, isChildVisibleList_iff]
      simp [ht, hs]

/-- C9: an id present in the SelectionValue but absent from the option
tree resolves to the empty string in single mode, and is omitted from the
joined label in multiple mode, the projection being a total function that
never raises. -/
theorem c9_missing_label (options : List OptionNode) (i : Nat) (l1 l2 : List Nat)
    (h : i ∉ subtreeIdsList options) :
    selectedLabel options false (SelValue.scalar i) = ""
    ∧ selectedLabel options true (SelValue.arr (l1 ++ i :: l2))
        = selectedLabel options true (SelValue.arr (l1 ++ l2)) := by
  have hnone : optionsMapLookup options i = none := optionsMapLookup_eq_none options i h
  constructor
  · simp [selectedLabel, hasSelection, hnone]
  · have hkey : ((l1 ++ i :: l2).map (optionsMapLookup options)).filter truthyLabel
        = ((l1 ++ l2).map (optionsMapLookup options)).filter truthyLabel := by
      simp only [List.map_append, List.filter_append, List.map_cons, List.filter_cons,
        hnone, truthyLabel]
      rfl
    by_cases hemp : l1 ++ l2 = []
    · obtain ⟨h1, h2⟩ := List.append_eq_nil.mp hemp
      subst h1
      subst h2
      simp [selectedLabel, hasSelection, hnone, truthyLabel, jsJoin]
    · have hpos : 0 < (l1 ++ l2).length := List.length_pos.mpr hemp
      have hS1 : hasSelection true (SelValue.arr (l1 ++ i :: l2)) = true := by
        simp [hasSelection]
      have hS2 : hasSelection true (SelValue.arr (l1 ++ l2)) = true := by
        simp only [List.length_append] at hpos
        simp [hasSelection]
        omega
      simp [selectedLabel, hS1, hS2, hnone, truthyLabel]

/-- C9 witness: the statement at a concrete two-node tree with the absent
id 99 inside the selection. -/
theorem c9_witness :
    selectedLabel [⟨1, "Fruit", [⟨2, "Apple", [], none⟩], none⟩] false
        (SelValue.scalar 99) = ""
    ∧ selectedLabel [⟨1, "Fruit", [⟨2, "Apple", [], none⟩], none⟩] true
        (SelValue.arr ([] ++ 99 :: [2]))
      = selectedLabel [⟨1, "Fruit", [⟨2, "Apple", [], none⟩], none⟩] true
        (SelValue.arr ([] ++ [2])) :=
  c9_missing_label [⟨1, "Fruit", [⟨2, "Apple", [], none⟩], none⟩] 99 [] [2] (by decide)

/-- C1: for a node rendered in multiple mode over a duplicate-free subtree
(the tree-wide id-uniqueness invariant), the indeterminate status is false
when the node has no children or is checked, and otherwise holds iff
strictly more than zero and strictly fewer than the number of descendant
ids are present in the SelectionValue. -/
theorem c1_indeterminate_iff (p : NodeProps)
    (hm : currentMode p.node p.multiple p.parentMode = "multiple")
    (hnd : (allDescendantIds p.node).Nodup) :
    isIndeterminate p = true ↔
      (hasChildren p.node = true ∧ isChecked p.modelValue p.node = false
        ∧ 0 < ((allDescendantIds p.node).toFinset
            ∩ (coerceToArray p.modelValue).toFinset).card
        ∧ ((allDescendantIds p.node).toFinset
            ∩ (coerceToArray p.modelValue).toFinset).card
          < (allDescendantIds p.node).toFinset.card) := by
  have hcard := length_filter_contains_eq_card (allDescendantIds p.node)
    (coerceToArray p.modelValue) hnd
  have htot : (allDescendantIds p.node).toFinset.card = (allDescendantIds p.node).length :=
    List.toFinset_card_of_nodup hnd
  have hcond : (!(currentMode p.node p.multiple p.parentMode == "multiple")) = false := by
    rw [hm]
    decide
  unfold isIndeterminate
  rw [hcond]
  simp only [Bool.false_or]
  cases hch : hasChildren p.node with
  | false => simp [hch]
  | true =>
    cases hck : isChecked p.modelValue p.node with
    | true => simp [hck]
    | false =>
      simp only [Bool.not_true, Bool.or_false, Bool.false_eq_true, if_false,
        Bool.and_eq_true, decide_eq_true_eq]
      rw [hcard, ← htot]
      simp

/-- C1 witness: the statement at the concrete two-leaf tree with exactly
one selected descendant, where the status is indeterminate. -/
theorem c1_witness :
    isIndeterminate ⟨⟨1, "Fruit", [⟨2, "Apple", [], none⟩, ⟨3, "Banana", [], none⟩],
        none⟩, SelValue.arr [2], true, "", "multiple", []⟩ = true ↔
      (hasChildren ⟨1, "Fruit", [⟨2, "Apple", [], none⟩, ⟨3, "Banana", [], none⟩], none⟩ = true
        ∧ isChecked (SelValue.arr [2])
            ⟨1, "Fruit", [⟨2, "Apple", [], none⟩, ⟨3, "Banana", [], none⟩], none⟩ = false
        ∧ 0 < ((allDescendantIds
              ⟨1, "Fruit", [⟨2, "Apple", [], none⟩, ⟨3, "Banana", [], none⟩], none⟩).toFinset
            ∩ (coerceToArray (SelValue.arr [2])).toFinset).card
        ∧ ((allDescendantIds
              ⟨1, "Fruit", [⟨2, "Apple", [], none⟩, ⟨3, "Banana", [], none⟩], none⟩).toFinset
            ∩ (coerceToArray (SelValue.arr [2])).toFinset).card
          < (allDescendantIds
              ⟨1, "Fruit", [⟨2, "Apple", [], none⟩, ⟨3, "Banana", [], none⟩], none⟩).toFinset.card) :=
  c1_indeterminate_iff _ (by decide) (by decide)
